import Mathlib

/-
Shallow embedding of `Animal_Shelter_DB_CRUD_Python_Module.py`: the
`Animal_Shelter` class, a CRUD facade over a MongoDB client.

Modeling choices:
* A BSON value is `Value`: null, integer, string, or a subdocument
  (association list of field name to value).  A document is an association
  list `List (String × Value)`; a collection ("Store") is a list of
  documents in insertion order.
* The database state reachable from the client is `DB`: the name of the
  collection bound at construction (`self.collection = database[COL]`)
  plus the named collections of the database.  The literally-named
  `animals` collection used by `getNextRecordNum` and `create` is
  `DB.getCol db "animals"`.
* A raised Python exception is the `.error` branch of `Except String`.
  A store-level driver failure (`errors.PyMongoError`) is modeled by a
  boolean `dbFail` argument: when true, the driver call inside the
  `try` block raises and the `except` branch runs.
* Query filter documents are modeled as field-equality filters (the only
  form the module itself constructs or that its callers need).
* Update operator documents model `$set` and `$unset`; any other operator
  document is modeled as a store-side write error (which the module
  catches, returning 0 with the store unchanged).
* Sorting compares values in BSON type-rank order (missing/null lowest,
  then numbers, then strings, then subdocuments); numbers compare by
  integer order and strings lexicographically by character; subdocuments
  are compared by type rank only (no claim sorts by a subdocument key).
-/

inductive Value where
  | vNull
  | vInt (n : Int)
  | vStr (s : String)
  | vDoc (fields : List (String × Value))

mutual

def Value.decEqVal : (a b : Value) → Decidable (a = b)
  | .vNull, .vNull => isTrue rfl
  | .vInt m, .vInt n =>
      if h : m = n then isTrue (by rw [h]) else isFalse (by intro e; cases e; exact h rfl)
  | .vStr s, .vStr t =>
      if h : s = t then isTrue (by rw [h]) else isFalse (by intro e; cases e; exact h rfl)
  | .vDoc d, .vDoc e =>
      match Value.decEqFields d e with
      | isTrue h => isTrue (by rw [h])
      | isFalse h => isFalse (by intro e; cases e; exact h rfl)
  | .vNull, .vInt _ => isFalse (fun h => Value.noConfusion h)
  | .vNull, .vStr _ => isFalse (fun h => Value.noConfusion h)
  | .vNull, .vDoc _ => isFalse (fun h => Value.noConfusion h)
  | .vInt _, .vNull => isFalse (fun h => Value.noConfusion h)
  | .vInt _, .vStr _ => isFalse (fun h => Value.noConfusion h)
  | .vInt _, .vDoc _ => isFalse (fun h => Value.noConfusion h)
  | .vStr _, .vNull => isFalse (fun h => Value.noConfusion h)
  | .vStr _, .vInt _ => isFalse (fun h => Value.noConfusion h)
  | .vStr _, .vDoc _ => isFalse (fun h => Value.noConfusion h)
  | .vDoc _, .vNull => isFalse (fun h => Value.noConfusion h)
  | .vDoc _, .vInt _ => isFalse (fun h => Value.noConfusion h)
  | .vDoc _, .vStr _ => isFalse (fun h => Value.noConfusion h)

def Value.decEqFields : (a b : List (String × Value)) → Decidable (a = b)
  | [], [] => isTrue rfl
  | [], _ :: _ => isFalse (fun h => List.noConfusion h)
  | _ :: _, [] => isFalse (fun h => List.noConfusion h)
  | (k, v) :: r, (k2, v2) :: r2 =>
      if hk : k = k2 then
        match Value.decEqVal v v2, Value.decEqFields r r2 with
        | isTrue h2, isTrue h3 => isTrue (by rw [hk, h2, h3])
        | isFalse h2, _ => isFalse (by intro e; cases e; exact h2 rfl)
        | _, isFalse h3 => isFalse (by intro e; cases e; exact h3 rfl)
      else isFalse (by intro e; cases e; exact hk rfl)

end

instance : DecidableEq Value := Value.decEqVal

/-- A MongoDB document: an association list of field name to value. -/
abbrev Document : Type := List (String × Value)

/-- A MongoDB collection: its documents in insertion order. -/
abbrev Store : Type := List Document

/-- Python truthiness of a BSON value (`if r["_id"]`):
`None`, `0`, the empty string and the empty document are falsy. -/
def Value.truthy : Value → Bool
  | .vNull => false
  | .vInt n => n != 0
  | .vStr s => s != ""
  | .vDoc d => !d.isEmpty

/-- The database state reachable from the module's MongoClient: the name of
the collection bound at construction plus the database's named collections. -/
structure DB where
  colName : String
  colls : List (String × Store)
deriving DecidableEq

/-- The documents of the named collection (a collection never written is empty). -/
def DB.getCol (db : DB) (name : String) : Store :=
  (db.colls.lookup name).getD []

/-- Replace the contents of the named collection. -/
def DB.setCol (db : DB) (name : String) (s : Store) : DB :=
  ⟨db.colName, (name, s) :: db.colls⟩

theorem DB.getCol_setCol_self (db : DB) (name : String) (s : Store) :
    (db.setCol name s).getCol name = s := by
  simp [DB.getCol, DB.setCol, List.lookup]

theorem DB.getCol_setCol_ne (db : DB) (name m : String) (s : Store) (h : m ≠ name) :
    (db.setCol name s).getCol m = db.getCol m := by
  simp [DB.getCol, DB.setCol, List.lookup, beq_eq_false_iff_ne.mpr h]

theorem DB.colName_setCol (db : DB) (name : String) (s : Store) :
    (db.setCol name s).colName = db.colName := rfl

instance {ε α : Type} [DecidableEq ε] [DecidableEq α] : DecidableEq (Except ε α) := fun a b =>
  match a, b with
  | .ok x, .ok y =>
      if h : x = y then isTrue (by rw [h]) else isFalse (by intro e; cases e; exact h rfl)
  | .error x, .error y =>
      if h : x = y then isTrue (by rw [h]) else isFalse (by intro e; cases e; exact h rfl)
  | .ok _, .error _ => isFalse (fun h => Except.noConfusion h)
  | .error _, .ok _ => isFalse (fun h => Except.noConfusion h)

/-- A query filter document matches a document when every filter field is
present in the document with the same value (equality filters). -/
def docMatches (q d : Document) : Bool :=
  q.all (fun kv => d.lookup kv.1 == some kv.2)

/-- The constant `pymongo.ASCENDING`. -/
def ASCENDING : Int := 1

/-- The constant `pymongo.DESCENDING`. -/
def DESCENDING : Int := -1

/-- Lexicographic order on character lists (string comparison). -/
def lexLe : List Char → List Char → Bool
  | [], _ => true
  | _ :: _, [] => false
  | a :: as, b :: bs => if a = b then lexLe as bs else decide (a < b)

/-- String comparison for sorting. -/
def strLe (s t : String) : Bool := lexLe s.data t.data

/-- BSON type rank for sorting: a missing field sorts with null, below
numbers, below strings, below subdocuments. -/
def valTypeRank : Option Value → Nat
  | none => 1
  | some .vNull => 1
  | some (.vInt _) => 2
  | some (.vStr _) => 3
  | some (.vDoc _) => 4

/-- Sort comparison on (possibly missing) field values: by BSON type rank,
with numbers compared by integer order and strings lexicographically.
Subdocument pairs are compared by rank only (no claim sorts on one). -/
def valLe : Option Value → Option Value → Bool
  | some (.vInt m), some (.vInt n) => decide (m ≤ n)
  | some (.vStr s), some (.vStr t) => strLe s t
  | a, b => decide (valTypeRank a ≤ valTypeRank b)

/-- Direction-aware comparison: a non-negative direction sorts ascending,
a negative one descending. -/
def dirLe (dir : Int) (a b : Option Value) : Bool :=
  if dir ≥ 0 then valLe a b else valLe b a

/-- Multi-key sort comparison over (field, direction) pairs, as the store
applies a sort specification: earlier keys dominate, ties fall to later keys. -/
def keysLe (ks : List (String × Int)) (d1 d2 : Document) : Bool :=
  match ks with
  | [] => true
  | (f, dir) :: rest =>
      let a := d1.lookup f
      let b := d2.lookup f
      if a = b then keysLe rest d1 d2 else dirLe dir a b

/-- The store's sort of a cursor by a (field, direction) specification,
modeled as a stable sort by `keysLe`. -/
def sortDocs (ks : List (String × Int)) (l : List Document) : List Document :=
  l.insertionSort (fun d1 d2 => keysLe ks d1 d2 = true)

namespace Animal_Shelter

/-- Method `getNextRecordNum`: queries the hard-coded `animals` collection with
`find().sort([('rec_num', -1)]).limit(1)` and returns the first document's
`rec_num` plus one; returns nothing when there is no document.  Accessing
`dict['rec_num']` on a document without that field raises a `KeyError`, and
`+ 1` on a non-integer raises a `TypeError`. -/
def getNextRecordNum (db : DB) : Except String (Option Int) :=
  let out := (sortDocs [("rec_num", DESCENDING)] (db.getCol "animals")).take 1
  match out.head? with
  | none => .ok none
  | some d =>
      match d.lookup "rec_num" with
      | some (.vInt n) => .ok (some (n + 1))
      | some _ => .error "TypeError: unsupported operand type for +"
      | none => .error "KeyError: rec_num"

/-- Method `create`: raises when `data` is `None`; otherwise inserts the document
into the hard-coded `animals` collection, returning `True`, or `False`
when the driver call fails. -/
def create (dbFail : Bool) (db : DB) (data : Option Document) : Except String (Bool × DB) :=
  match data with
  | some d =>
      if dbFail then .ok (false, db)
      else .ok (true, db.setCol "animals" (db.getCol "animals" ++ [d]))
  | none => .error "Nothing to save, because data parameter is empty"

/-- MongoDB projection applied when documents are returned: with no
projection the document is unchanged; with truthy non-`_id` entries the
projection is an inclusion (keeping `_id` unless explicitly excluded);
otherwise it is an exclusion of the listed fields. -/
def applyProj (projection : Option Document) (d : Document) : Document :=
  match projection with
  | none => d
  | some p =>
      let incl := p.filter (fun kv => kv.1 != "_id" && kv.2.truthy)
      if incl.isEmpty then
        d.filter (fun kv => !(p.any (fun pk => pk.1 == kv.1 && !pk.2.truthy)))
      else
        d.filter (fun kv =>
          (kv.1 == "_id" && !(p.any (fun pk => pk.1 == "_id" && !pk.2.truthy))) ||
          incl.any (fun pk => pk.1 == kv.1))

/-- The sort-direction normalization loop in `read`: each `(field,
direction)` pair becomes `(field, ASCENDING)` when the direction is
non-negative and `(field, DESCENDING)` otherwise. -/
def normalizeSort (sortArg : List (String × Int)) : List (String × Int) :=
  sortArg.map (fun fd => (fd.1, if fd.2 ≥ 0 then ASCENDING else DESCENDING))

/-- Method `read`: raises when `query` is `None`; otherwise builds a cursor over
the bound collection filtered by the query, sorts it when a non-empty sort
specification is given (normalizing directions first), then applies a
positive skip, then a positive limit, and materializes the cursor (the
projection shapes the returned documents).  A driver failure is caught and
yields the empty list.  A `None` sort argument and an empty sort list are
both falsy in `if sort:`, hence both are `[]` here. -/
def read (dbFail : Bool) (db : DB) (query : Option Document) (projection : Option Document)
    (limit : Int) (skip : Int) (sortArg : List (String × Int)) :
    Except String (List Document) :=
  match query with
  | none => .error "Query parameter is empty"
  | some q =>
      if dbFail then .ok []
      else
        let c1 := (db.getCol db.colName).filter (docMatches q)
        let c2 := if sortArg.isEmpty then c1 else sortDocs (normalizeSort sortArg) c1
        let c3 := if skip > 0 then c2.drop skip.toNat else c2
        let c4 := if limit > 0 then c3.take limit.toNat else c3
        .ok (c4.map (applyProj projection))

/-- The check `key.startswith('$')`: whether the first character of the key is `$`. -/
def startsWithDollar (s : String) : Bool :=
  match s.data with
  | [] => false
  | c :: _ => c == '$'

/-- Application of `$set` to one field: replaces the value in place when the field exists,
otherwise appends the field. -/
def setField (d : Document) (k : String) (v : Value) : Document :=
  if d.any (fun kv => kv.1 == k) then d.map (fun kv => if kv.1 == k then (k, v) else kv)
  else d ++ [(k, v)]

/-- Application of `$unset` to one field. -/
def removeField (d : Document) (k : String) : Document :=
  d.filter (fun kv => kv.1 != k)

/-- Application of an update operator document to one document (`$set` and
`$unset` are the modeled operators). -/
def applyOpDoc (op : Document) (d : Document) : Document :=
  op.foldl (fun acc kv =>
    match kv with
    | ("$set", .vDoc fs) => fs.foldl (fun a f => setField a f.1 f.2) acc
    | ("$unset", .vDoc fs) => fs.foldl (fun a f => removeField a f.1) acc
    | _ => acc) d

/-- Validation of an update operator document: non-empty, every top-level
entry a modeled operator with a subdocument payload.  Anything else is
modeled as a store-side write error. -/
def opValid (op : Document) : Bool :=
  !op.isEmpty && op.all (fun kv =>
    (kv.1 == "$set" || kv.1 == "$unset") &&
    (match kv.2 with | .vDoc _ => true | _ => false))

/-- Number of positions at which two equal-length stores differ (the
store's `modified_count`: documents the update actually changed). -/
def changedCount (st st2 : Store) : Nat :=
  ((st.zip st2).filter (fun p => p.1 != p.2)).length

/-- The store's `update_many`: applies the operator document to every
matching document and reports how many documents actually changed.
`none` models a write error (invalid operator document). -/
def update_many (st : Store) (flt op : Document) : Option (Nat × Store) :=
  if opValid op then
    let st2 := st.map (fun d => if docMatches flt d then applyOpDoc op d else d)
    some (changedCount st st2, st2)
  else none

/-- Method `update`: raises when either argument is `None`; otherwise wraps the
update data in `$set` unless some top-level key starts with `$`, runs
`update_many` on the bound collection, and returns `modified_count`.
A driver failure (or write error) is caught and yields 0 with the
collection unchanged. -/
def update (dbFail : Bool) (db : DB) (lookup_pair : Option Document)
    (update_data : Option Document) : Except String (Nat × DB) :=
  match lookup_pair, update_data with
  | some lk, some ud =>
      if dbFail then .ok (0, db)
      else
        let update_operation :=
          if !(ud.any (fun kv => startsWithDollar kv.1)) then [("$set", Value.vDoc ud)] else ud
        match update_many (db.getCol db.colName) lk update_operation with
        | some (n, st2) => .ok (n, db.setCol db.colName st2)
        | none => .ok (0, db)
  | _, _ => .error "Required parameters for update are missing: lookup_pair and/or update_data"

/-- Method `delete`: raises when the lookup filter is `None`; otherwise removes
every matching document from the bound collection and returns
`deleted_count`.  A driver failure is caught and yields 0. -/
def delete (dbFail : Bool) (db : DB) (lookup_pair : Option Document) :
    Except String (Nat × DB) :=
  match lookup_pair with
  | some lk =>
      if dbFail then .ok (0, db)
      else
        let st := db.getCol db.colName
        .ok ((st.filter (fun d => docMatches lk d)).length,
          db.setCol db.colName (st.filter (fun d => !docMatches lk d)))
  | none => .error "Required parameter for delete is missing: lookup_pair"

/-- Method `count`: the idiom `query or {}` replaces a falsy query (absent or empty) with
the empty query; returns the number of matching documents in the bound
collection, or 0 when the driver call fails.  Never raises. -/
def count (dbFail : Bool) (db : DB) (query : Option Document) : Nat :=
  let q := query.getD []
  if dbFail then 0 else ((db.getCol db.colName).filter (docMatches q)).length

/-- The `$group` key `"$breed"`: a missing field groups as null. -/
def breedKey (d : Document) : Value := (d.lookup "breed").getD .vNull

/-- The distinct values of a list, in order of first appearance. -/
def distinctKeys (l : List Value) : List Value :=
  l.foldl (fun acc k => if k ∈ acc then acc else acc ++ [k]) []

/-- The `$group` stage of the `breed_counts` pipeline: one `(key, count)`
pair per distinct breed value among the given documents. -/
def groupBreeds (docs : List Document) : List (Value × Nat) :=
  (distinctKeys (docs.map breedKey)).map
    (fun k => (k, (docs.filter (fun d => breedKey d == k)).length))

/-- Descending order by group count (`{"$sort": {"count": -1}}`). -/
def countGe (a b : Value × Nat) : Prop := b.2 ≤ a.2

instance : DecidableRel countGe := fun a b => Nat.decLe b.2 a.2

instance : IsTotal (Value × Nat) countGe := ⟨fun a b => Nat.le_total b.2 a.2⟩

instance : IsTrans (Value × Nat) countGe := ⟨fun _ _ _ h1 h2 => Nat.le_trans h2 h1⟩

/-- Method `breed_counts`: a `None` query becomes the empty query; the pipeline
matches, groups by breed with counts, sorts descending by count and caps
at `limit` server-side; the result rows are renamed to `(breed, count)`
pairs, keeping only rows with a truthy group key (`if r["_id"]`).  A
driver failure — including the server's rejection of a non-positive
`$limit` — is caught and yields the empty list.  Never raises. -/
def breed_counts (dbFail : Bool) (db : DB) (query : Option Document) (limit : Int) :
    Except String (List (Value × Nat)) :=
  let q := match query with | none => ([] : Document) | some qq => qq
  if dbFail then .ok []
  else if limit ≤ 0 then .ok []
  else
    let matched := (db.getCol db.colName).filter (docMatches q)
    let results := (List.insertionSort countGe (groupBreeds matched)).take limit.toNat
    .ok ((results.filter (fun r => r.1.truthy)).map (fun r => (r.1, r.2)))

end Animal_Shelter

open Animal_Shelter

/-- Bound-collection named `pets`, both `pets` and `animals` empty. -/
def dbPets : DB := ⟨"pets", [("pets", []), ("animals", [])]⟩

/-- A sample document. -/
def rexDoc : Document := [("name", Value.vStr "Rex")]

/-- C1 counterexample: with the collection bound at construction named
`pets`, `create` inserts into the literally-named `animals` collection and
leaves `pets` untouched — so it is false that every operation other than
`getNextRecordNum` targets the bound collection. -/
theorem C1_counterexample :
    dbPets.colName = "pets" ∧
    create false dbPets (some rexDoc) = .ok (true, DB.setCol dbPets "animals" [rexDoc]) ∧
    (DB.setCol dbPets "animals" [rexDoc]).getCol "pets" = [] ∧
    (DB.setCol dbPets "animals" [rexDoc]).getCol "animals" = [rexDoc] := by
  decide

/-- C1 (amended): the hard-coded `animals` collection is used by both
`getNextRecordNum` and `create` — `create` inserts into it and touches no
other collection, `getNextRecordNum` is determined by it alone — while
`read`, `breed_counts`, `count`, `update` and `delete` target only the
collection bound at construction. -/
theorem C1_hard_coded_animals_amended :
    (∀ (db : DB) (d : Document), ∃ db2 : DB,
        create false db (some d) = .ok (true, db2) ∧
        db2.getCol "animals" = db.getCol "animals" ++ [d] ∧
        db2.colName = db.colName ∧
        ∀ m : String, m ≠ "animals" → db2.getCol m = db.getCol m) ∧
    (∀ db1 db2 : DB, db1.getCol "animals" = db2.getCol "animals" →
        getNextRecordNum db1 = getNextRecordNum db2) ∧
    (∀ db1 db2 : DB, db1.getCol db1.colName = db2.getCol db2.colName →
        ∀ (f : Bool) (q p : Option Document) (lim sk : Int) (s : List (String × Int)),
          read f db1 q p lim sk s = read f db2 q p lim sk s) ∧
    (∀ db1 db2 : DB, db1.getCol db1.colName = db2.getCol db2.colName →
        ∀ (f : Bool) (q : Option Document) (l : Int),
          breed_counts f db1 q l = breed_counts f db2 q l) ∧
    (∀ db1 db2 : DB, db1.getCol db1.colName = db2.getCol db2.colName →
        ∀ (f : Bool) (q : Option Document), count f db1 q = count f db2 q) ∧
    (∀ (db : DB) (lk ud : Document), ∃ (n : Nat) (db2 : DB),
        update false db (some lk) (some ud) = .ok (n, db2) ∧
        db2.colName = db.colName ∧
        ∀ m : String, m ≠ db.colName → db2.getCol m = db.getCol m) ∧
    (∀ (db : DB) (lk : Document), ∃ (n : Nat) (db2 : DB),
        delete false db (some lk) = .ok (n, db2) ∧
        db2.colName = db.colName ∧
        ∀ m : String, m ≠ db.colName → db2.getCol m = db.getCol m) := by
  refine ⟨?_, ?_, ?_, ?_, ?_, ?_, ?_⟩
  · intro db d
    exact ⟨db.setCol "animals" (db.getCol "animals" ++ [d]), rfl,
      db.getCol_setCol_self _ _, db.colName_setCol _ _,
      fun m hm => db.getCol_setCol_ne _ _ _ hm⟩
  · intro db1 db2 h
    simp only [getNextRecordNum, h]
  · intro db1 db2 h f q p lim sk s
    cases q with
    | none => rfl
    | some qq => simp only [Animal_Shelter.read, h]
  · intro db1 db2 h f q l
    simp only [breed_counts, h]
  · intro db1 db2 h f q
    simp only [count, h]
  · intro db lk ud
    cases hm : update_many (db.getCol db.colName) lk
        (if !(ud.any (fun kv => startsWithDollar kv.1)) then [("$set", Value.vDoc ud)] else ud) with
    | none =>
        exact ⟨0, db, by simp [Animal_Shelter.update, hm], rfl, fun m _ => rfl⟩
    | some res =>
        exact ⟨res.1, db.setCol db.colName res.2, by simp [Animal_Shelter.update, hm], rfl,
          fun m hm2 => db.getCol_setCol_ne _ _ _ hm2⟩
  · intro db lk
    exact ⟨((db.getCol db.colName).filter (fun d => docMatches lk d)).length,
      db.setCol db.colName ((db.getCol db.colName).filter (fun d => !docMatches lk d)), rfl, rfl,
      fun m hm2 => db.getCol_setCol_ne _ _ _ hm2⟩

/-- C1 witness: the `getNextRecordNum` frame conjunct applied to two
concrete databases agreeing on `animals` but bound to different
collections. -/
theorem C1_hard_coded_animals_amended_witness :
    getNextRecordNum ⟨"x", [("animals", [[("rec_num", Value.vInt 1)]])]⟩ =
      getNextRecordNum ⟨"y", [("pets", [[]]), ("animals", [[("rec_num", Value.vInt 1)]])]⟩ :=
  C1_hard_coded_animals_amended.2.1 _ _ (by decide)

/-- Bound collection named `animals`, currently empty. -/
def dbAnimalsEmpty : DB := ⟨"animals", [("animals", [])]⟩

/-- C2 counterexample: `create` with an empty mapping does not raise — it
returns `True` and a document (the empty document) is inserted. -/
theorem C2_counterexample :
    create false dbAnimalsEmpty (some ([] : Document)) =
      .ok (true, DB.setCol dbAnimalsEmpty "animals" [[]]) ∧
    (DB.setCol dbAnimalsEmpty "animals" [[]]).getCol "animals" = [([] : Document)] := by
  decide

/-- C2 (amended): `create(None)` raises the contract error and inserts
nothing (no new database state is produced); any non-`None` data —
including an empty mapping — is accepted: the document is inserted and
`create` returns `True`. -/
theorem C2_create_contract_amended :
    (∀ (f : Bool) (db : DB),
        create f db none = .error "Nothing to save, because data parameter is empty") ∧
    (∀ (db : DB) (d : Document), ∃ db2 : DB,
        create false db (some d) = .ok (true, db2) ∧
        db2.getCol "animals" = db.getCol "animals" ++ [d]) := by
  refine ⟨fun f db => rfl, fun db d => ⟨db.setCol "animals" (db.getCol "animals" ++ [d]),
    rfl, db.getCol_setCol_self _ _⟩⟩

/-- C3: whenever the store-level driver call fails, every operation
catches the exception and returns its neutral default — `read` and
`breed_counts` the empty sequence, `update`, `delete` and `count` zero
(with the database unchanged), `create` false — and none of them
propagates the exception (each returns a value, not an error). -/
theorem C3_backend_failure_neutral :
    ∀ (db : DB) (q lk ud d : Document) (p qd : Option Document) (lim sk l : Int)
      (s : List (String × Int)),
      read true db (some q) p lim sk s = .ok [] ∧
      breed_counts true db qd l = .ok [] ∧
      update true db (some lk) (some ud) = .ok (0, db) ∧
      delete true db (some lk) = .ok (0, db) ∧
      count true db qd = 0 ∧
      create true db (some d) = .ok (false, db) :=
  fun _ _ _ _ _ _ _ _ _ _ _ => ⟨rfl, rfl, rfl, rfl, rfl, rfl⟩

/-- C4: calling `read`, `update` or `delete` with a `None` required
argument raises the contract error — independently of whether the store
would fail — and no store operation is performed: the error carries no
updated database state, so the store is unchanged. -/
theorem C4_missing_argument_raises :
    ∀ (f : Bool) (db : DB) (p : Option Document) (lim sk : Int) (s : List (String × Int))
      (lk ud : Document),
      read f db none p lim sk s = .error "Query parameter is empty" ∧
      update f db none (some ud) =
        .error "Required parameters for update are missing: lookup_pair and/or update_data" ∧
      update f db (some lk) none =
        .error "Required parameters for update are missing: lookup_pair and/or update_data" ∧
      update f db none none =
        .error "Required parameters for update are missing: lookup_pair and/or update_data" ∧
      delete f db none = .error "Required parameter for delete is missing: lookup_pair" :=
  fun _ _ _ _ _ _ _ _ => ⟨rfl, rfl, rfl, rfl, rfl⟩

/-- C10: `breed_counts` with an absent query does not raise — the absent
query is replaced by the empty query, so the call behaves exactly like
`breed_counts` over all documents and always returns a value — unlike
`read`, whose absent query raises the contract error. -/
theorem C10_breed_counts_none_query :
    ∀ (f : Bool) (db : DB) (l : Int),
      breed_counts f db none l = breed_counts f db (some []) l ∧
      (∃ r, breed_counts f db none l = .ok r) ∧
      ∀ (p : Option Document) (lim sk : Int) (s : List (String × Int)),
        read f db none p lim sk s = .error "Query parameter is empty" := by
  intro f db l
  refine ⟨rfl, ?_, fun p lim sk s => rfl⟩
  unfold Animal_Shelter.breed_counts
  cases f
  · by_cases hl : l ≤ 0
    · simp only [hl, Bool.false_eq_true, if_false, if_true, if_pos]
      exact ⟨[], rfl⟩
    · simp only [hl, Bool.false_eq_true, if_false]
      exact ⟨_, rfl⟩
  · exact ⟨[], rfl⟩

/-- Whether a document carries an integer `rec_num`. -/
def isIntRec (d : Document) : Bool :=
  match d.lookup "rec_num" with
  | some (.vInt _) => true
  | _ => false

theorem isIntRec_spec (d : Document) (h : isIntRec d = true) :
    ∃ n : Int, d.lookup "rec_num" = some (Value.vInt n) := by
  cases hl : d.lookup "rec_num" with
  | none => simp [isIntRec, hl] at h
  | some v =>
      cases v with
      | vInt n => exact ⟨n, rfl⟩
      | vNull => simp [isIntRec, hl] at h
      | vStr s => simp [isIntRec, hl] at h
      | vDoc fs => simp [isIntRec, hl] at h

theorem recKeysLe_iff (x y : Document) (m n : Int)
    (hx : x.lookup "rec_num" = some (Value.vInt m))
    (hy : y.lookup "rec_num" = some (Value.vInt n)) :
    (keysLe [("rec_num", DESCENDING)] x y = true) ↔ n ≤ m := by
  by_cases h : m = n
  · subst h
    simp [keysLe, hx, hy]
  · have hne : (some (Value.vInt m) : Option Value) ≠ some (Value.vInt n) := by
      intro e
      injection e with e1
      injection e1 with e2
      exact h e2
    simp [keysLe, hx, hy, hne, dirLe, DESCENDING, valLe,
      show ¬((-1 : Int) ≥ 0) from by decide]

theorem sortDocs_nil (ks : List (String × Int)) : sortDocs ks [] = [] := rfl

theorem sortDocs_cons (ks : List (String × Int)) (x : Document) (xs : List Document) :
    sortDocs ks (x :: xs) =
      List.orderedInsert (fun d1 d2 => keysLe ks d1 d2 = true) x (sortDocs ks xs) := rfl

theorem sortDocs_perm (ks : List (String × Int)) (l : List Document) :
    (sortDocs ks l).Perm l :=
  List.perm_insertionSort _ l

/-- Head of the descending-`rec_num` sort of a list of documents with
integer `rec_num` fields: it is a member and its `rec_num` is maximal. -/
theorem sortDocs_recDesc_head (l : List Document)
    (hall : ∀ d ∈ l, isIntRec d = true) :
    ∀ h t, sortDocs [("rec_num", DESCENDING)] l = h :: t →
      h ∈ l ∧ ∀ d ∈ l, ∀ m n : Int, d.lookup "rec_num" = some (Value.vInt m) →
        h.lookup "rec_num" = some (Value.vInt n) → m ≤ n := by
  induction l with
  | nil => intro h t he; simp [sortDocs] at he
  | cons x xs ih =>
      intro h t he
      have hallxs : ∀ d ∈ xs, isIntRec d = true :=
        fun d hd => hall d (List.mem_cons_of_mem _ hd)
      rw [sortDocs_cons] at he
      cases hxs : sortDocs [("rec_num", DESCENDING)] xs with
      | nil =>
          have hxsnil : xs = [] := by
            have hp := sortDocs_perm [("rec_num", DESCENDING)] xs
            rw [hxs] at hp
            exact List.perm_nil.mp hp.symm
          rw [hxs] at he
          simp only [List.orderedInsert] at he
          injection he with he1 he2
          subst he1
          subst hxsnil
          refine ⟨List.mem_cons_self _ _, ?_⟩
          intro d hd m n hdm hhn
          rcases List.mem_cons.mp hd with rfl | hdxs
          · rw [hdm] at hhn
            injection hhn with e1
            injection e1 with e2
            omega
          · cases hdxs
      | cons h2 t2 =>
          rw [hxs] at he
          obtain ⟨hmem2, hmax2⟩ := ih hallxs h2 t2 hxs
          obtain ⟨nx, hnx⟩ := isIntRec_spec x (hall x (List.mem_cons_self _ _))
          obtain ⟨n2, hn2⟩ := isIntRec_spec h2 (hallxs h2 hmem2)
          by_cases hr : keysLe [("rec_num", DESCENDING)] x h2 = true
          · rw [show List.orderedInsert (fun d1 d2 =>
                keysLe [("rec_num", DESCENDING)] d1 d2 = true) x (h2 :: t2) =
                x :: h2 :: t2 from by simp [List.orderedInsert, hr]] at he
            injection he with he1 he2
            subst he1
            have hle : n2 ≤ nx := (recKeysLe_iff x h2 nx n2 hnx hn2).mp hr
            refine ⟨List.mem_cons_self _ _, ?_⟩
            intro d hd m n hdm hhn
            have hnnx : n = nx := by
              rw [hnx] at hhn
              injection hhn with e1
              injection e1 with e2
              omega
            rcases List.mem_cons.mp hd with rfl | hdxs
            · rw [hdm] at hnx
              injection hnx with e1
              injection e1 with e2
              omega
            · have := hmax2 d hdxs m n2 hdm hn2
              omega
          · rw [show List.orderedInsert (fun d1 d2 =>
                keysLe [("rec_num", DESCENDING)] d1 d2 = true) x (h2 :: t2) =
                h2 :: List.orderedInsert (fun d1 d2 =>
                  keysLe [("rec_num", DESCENDING)] d1 d2 = true) x t2
                from by simp [List.orderedInsert, hr]] at he
            injection he with he1 he2
            subst he1
            have hgt : ¬ n2 ≤ nx := fun hcon => hr ((recKeysLe_iff x h2 nx n2 hnx hn2).mpr hcon)
            refine ⟨List.mem_cons_of_mem _ hmem2, ?_⟩
            intro d hd m n hdm hhn
            have hnn2 : n = n2 := by
              rw [hn2] at hhn
              injection hhn with e1
              injection e1 with e2
              omega
            rcases List.mem_cons.mp hd with rfl | hdxs
            · rw [hdm] at hnx
              injection hnx with e1
              injection e1 with e2
              omega
            · have := hmax2 d hdxs m n2 hdm hn2
              omega

/-- C5: when the queried collection is empty `getNextRecordNum` returns an
absent value; on a non-empty collection whose documents carry integer
`rec_num` fields, it returns one more than the maximum `rec_num`. -/
theorem C5_getNextRecordNum_max (db : DB)
    (hall : ∀ d ∈ db.getCol "animals", isIntRec d = true) :
    (db.getCol "animals" = [] → getNextRecordNum db = .ok none) ∧
    (db.getCol "animals" ≠ [] → ∃ m : Int,
      getNextRecordNum db = .ok (some (m + 1)) ∧
      (∃ d ∈ db.getCol "animals", d.lookup "rec_num" = some (Value.vInt m)) ∧
      (∀ d ∈ db.getCol "animals", ∀ k : Int,
        d.lookup "rec_num" = some (Value.vInt k) → k ≤ m)) := by
  constructor
  · intro hnil
    simp [Animal_Shelter.getNextRecordNum, hnil, sortDocs_nil]
  · intro hne
    cases hs : sortDocs [("rec_num", DESCENDING)] (db.getCol "animals") with
    | nil =>
        exfalso
        have hp := sortDocs_perm [("rec_num", DESCENDING)] (db.getCol "animals")
        rw [hs] at hp
        exact hne (List.perm_nil.mp hp.symm)
    | cons h t =>
        obtain ⟨hmem, hmax⟩ := sortDocs_recDesc_head _ hall h t hs
        obtain ⟨n, hn⟩ := isIntRec_spec h (hall h hmem)
        refine ⟨n, ?_, ⟨h, hmem, hn⟩, fun d hd k hk => hmax d hd k n hk hn⟩
        simp [Animal_Shelter.getNextRecordNum, hs, hn]

/-- The `animals` collection with `rec_num` values 3, 7, 5. -/
def dbRecNums : DB := ⟨"animals", [("animals",
  [[("rec_num", Value.vInt 3)], [("rec_num", Value.vInt 7)], [("rec_num", Value.vInt 5)]])]⟩

/-- C5 witness: on `rec_num` values 3, 7, 5 the hypothesis holds, the
theorem applies, and the returned value is 8 (max 7 plus one). -/
theorem C5_getNextRecordNum_max_witness :
    (∀ d ∈ dbRecNums.getCol "animals", isIntRec d = true) ∧
    ((dbRecNums.getCol "animals" = [] → getNextRecordNum dbRecNums = .ok none) ∧
     (dbRecNums.getCol "animals" ≠ [] → ∃ m : Int,
        getNextRecordNum dbRecNums = .ok (some (m + 1)) ∧
        (∃ d ∈ dbRecNums.getCol "animals", d.lookup "rec_num" = some (Value.vInt m)) ∧
        (∀ d ∈ dbRecNums.getCol "animals", ∀ k : Int,
          d.lookup "rec_num" = some (Value.vInt k) → k ≤ m))) ∧
    getNextRecordNum dbRecNums = .ok (some 8) :=
  ⟨by decide, C5_getNextRecordNum_max dbRecNums (by decide), by decide⟩

theorem sortDocs_length (ks : List (String × Int)) (l : List Document) :
    (sortDocs ks l).length = l.length :=
  List.length_insertionSort _ _

theorem normalizeSort_idem (s : List (String × Int)) :
    normalizeSort (normalizeSort s) = normalizeSort s := by
  simp only [Animal_Shelter.normalizeSort, List.map_map]
  apply List.map_congr_left
  intro a _
  by_cases h : a.2 ≥ 0
  · simp [Function.comp, h, ASCENDING, DESCENDING, show (1 : Int) ≥ 0 from by decide]
  · simp [Function.comp, h, ASCENDING, DESCENDING, show ¬((-1 : Int) ≥ 0) from by decide]

theorem isEmpty_normalizeSort (s : List (String × Int)) :
    (normalizeSort s).isEmpty = s.isEmpty := by
  cases s <;> rfl

/-- C8: for every `read` call, the sort argument is normalized pairwise
before being applied — a direction of zero or more sorts ascending, a
negative direction descending — so a `read` with any directions behaves
exactly like a `read` whose directions were replaced by
`ASCENDING`/`DESCENDING` under that mapping. -/
theorem C8_read_sort_normalized :
    ∀ (f : Bool) (db : DB) (q p : Option Document) (lim sk : Int) (s : List (String × Int)),
      read f db q p lim sk s =
        read f db q p lim sk
          (s.map (fun fd => (fd.1, if fd.2 ≥ 0 then ASCENDING else DESCENDING))) := by
  intro f db q p lim sk s
  have hmap : s.map (fun fd => (fd.1, if fd.2 ≥ 0 then ASCENDING else DESCENDING)) =
      normalizeSort s := rfl
  rw [hmap]
  cases q with
  | none => rfl
  | some qq =>
      simp only [Animal_Shelter.read]
      rw [isEmpty_normalizeSort, normalizeSort_idem]

/-- C9: in `read`, a skip of zero or less is ignored, a limit of zero or
less means unlimited (a limit at least the number of matching documents
changes nothing either), and with a positive skip and limit and a
non-empty sort the result is obtained by sorting first, then skipping,
then limiting. -/
theorem C9_read_skip_limit (db : DB) (q : Document) (p : Option Document) (lim sk : Int)
    (s : List (String × Int)) :
    (sk ≤ 0 → read false db (some q) p lim sk s = read false db (some q) p lim 0 s) ∧
    (lim ≤ 0 → read false db (some q) p lim sk s = read false db (some q) p 0 sk s) ∧
    ((((db.getCol db.colName).filter (docMatches q)).length : Int) ≤ lim →
      read false db (some q) p lim sk s = read false db (some q) p 0 sk s) ∧
    (0 < lim → 0 < sk → s ≠ [] →
      read false db (some q) p lim sk s =
        .ok ((((sortDocs (normalizeSort s) ((db.getCol db.colName).filter (docMatches q))).drop
          sk.toNat).take lim.toNat).map (applyProj p))) := by
  have h2 : lim ≤ 0 → read false db (some q) p lim sk s = read false db (some q) p 0 sk s := by
    intro h
    simp only [Animal_Shelter.read]
    rw [if_neg (by omega : ¬ lim > 0), if_neg (by omega : ¬ (0 : Int) > 0)]
  refine ⟨?_, h2, ?_, ?_⟩
  · intro h
    simp only [Animal_Shelter.read]
    rw [if_neg (by omega : ¬ sk > 0), if_neg (by omega : ¬ (0 : Int) > 0)]
  · intro h
    rcases le_or_lt lim 0 with hl | hl
    · exact h2 hl
    · simp only [Animal_Shelter.read]
      rw [if_pos (by omega : lim > 0), if_neg (by omega : ¬ (0 : Int) > 0)]
      congr 1
      rw [List.take_of_length_le]
      split_ifs with hsk hem hem
      · rw [List.length_drop]
        omega
      · rw [List.length_drop, sortDocs_length]
        omega
      · omega
      · rw [sortDocs_length]
        omega
  · intro h1 hsk hs
    have hne : ¬ (s.isEmpty = true) := by
      simp only [List.isEmpty_iff]
      exact hs
    simp only [Animal_Shelter.read]
    rw [if_neg hne, if_pos (by omega : sk > 0), if_pos (by omega : lim > 0)]
    rfl

/-- Five documents with distinct ages, for the C9 witness. -/
def dbAges : DB := ⟨"pets", [("pets",
  [[("n", Value.vInt 1), ("age_upon_outcome_in_weeks", Value.vInt 10)],
   [("n", Value.vInt 2), ("age_upon_outcome_in_weeks", Value.vInt 30)],
   [("n", Value.vInt 3), ("age_upon_outcome_in_weeks", Value.vInt 20)],
   [("n", Value.vInt 4), ("age_upon_outcome_in_weeks", Value.vInt 50)],
   [("n", Value.vInt 5), ("age_upon_outcome_in_weeks", Value.vInt 40)]])]⟩

/-- C9 witness: descending sort on age over 5 documents with skip 1 and
limit 2 returns exactly the 2nd- and 3rd-ranked documents. -/
theorem C9_read_skip_limit_witness :
    read false dbAges (some []) none 2 1 [("age_upon_outcome_in_weeks", -1)] =
      .ok [[("n", Value.vInt 5), ("age_upon_outcome_in_weeks", Value.vInt 40)],
           [("n", Value.vInt 2), ("age_upon_outcome_in_weeks", Value.vInt 30)]] :=
  ((C9_read_skip_limit dbAges [] none 2 1 [("age_upon_outcome_in_weeks", -1)]).2.2.2
    (by decide) (by decide) (by decide)).trans (by decide)

theorem changedCount_self (st : Store) : changedCount st st = 0 := by
  induction st with
  | nil => rfl
  | cons d st ih =>
      simp only [changedCount, List.zip_cons_cons, List.filter_cons, bne_self_eq_false,
        Bool.false_eq_true, if_false] at ih ⊢
      exact ih

theorem map_no_match (st : Store) (lk op : Document)
    (h : ∀ d ∈ st, docMatches lk d = false) :
    st.map (fun d => if docMatches lk d then applyOpDoc op d else d) = st :=
  (List.map_congr_left (fun d hd => by simp [h d hd])).trans (List.map_id st)

/-- C6: when no top-level key of the update data starts with `$`, `update`
behaves exactly as if the data had been wrapped in a `$set` operator
document; otherwise the data is passed to the store verbatim.  The
operation is applied to every matching document of the bound collection,
the returned value is the number of documents actually changed, and a
filter matching no documents yields 0 with every collection unchanged. -/
theorem C6_update_wrap_bulk (db : DB) (lk ud : Document) :
    (ud.any (fun kv => startsWithDollar kv.1) = false →
      update false db (some lk) (some ud) =
        update false db (some lk) (some [("$set", Value.vDoc ud)])) ∧
    (ud.any (fun kv => startsWithDollar kv.1) = true →
      update false db (some lk) (some ud) =
        match update_many (db.getCol db.colName) lk ud with
        | some (n, st2) => .ok (n, db.setCol db.colName st2)
        | none => .ok (0, db)) ∧
    ((db.getCol db.colName).all (fun d => !docMatches lk d) = true →
      ∃ db2 : DB, update false db (some lk) (some ud) = .ok (0, db2) ∧
        ∀ m : String, db2.getCol m = db.getCol m) ∧
    (opValid (if !(ud.any (fun kv => startsWithDollar kv.1))
        then [("$set", Value.vDoc ud)] else ud) = true →
      ∃ st2 : Store,
        update false db (some lk) (some ud) =
          .ok (changedCount (db.getCol db.colName) st2, db.setCol db.colName st2) ∧
        st2.length = (db.getCol db.colName).length ∧
        ∀ i : Nat, (hi : i < (db.getCol db.colName).length) →
          st2[i]? = some (if docMatches lk (db.getCol db.colName)[i]
            then applyOpDoc (if !(ud.any (fun kv => startsWithDollar kv.1))
              then [("$set", Value.vDoc ud)] else ud) (db.getCol db.colName)[i]
            else (db.getCol db.colName)[i])) := by
  refine ⟨?_, ?_, ?_, ?_⟩
  · intro h
    simp [Animal_Shelter.update, h, show startsWithDollar "$set" = true from by decide]
  · intro h
    simp [Animal_Shelter.update, h]
  · intro h
    have hnm : ∀ d ∈ db.getCol db.colName, docMatches lk d = false := by
      intro d hd
      have := (List.all_eq_true.mp h) d hd
      simpa using this
    by_cases hv : opValid (if !(ud.any fun kv => startsWithDollar kv.1)
        then [("$set", Value.vDoc ud)] else ud) = true
    · refine ⟨db.setCol db.colName (db.getCol db.colName), ?_, ?_⟩
      · have hm : update_many (db.getCol db.colName) lk
            (if !(ud.any fun kv => startsWithDollar kv.1)
              then [("$set", Value.vDoc ud)] else ud) =
            some (0, db.getCol db.colName) := by
          unfold Animal_Shelter.update_many
          rw [if_pos hv, map_no_match _ _ _ hnm]
          dsimp only
          rw [changedCount_self]
        simp [Animal_Shelter.update, hm]
      · intro m
        by_cases hm2 : m = db.colName
        · subst hm2
          rw [DB.getCol_setCol_self]
        · rw [DB.getCol_setCol_ne _ _ _ _ hm2]
    · refine ⟨db, ?_, fun m => rfl⟩
      have hm : update_many (db.getCol db.colName) lk
          (if !(ud.any fun kv => startsWithDollar kv.1)
            then [("$set", Value.vDoc ud)] else ud) = none := by
        unfold Animal_Shelter.update_many
        rw [if_neg hv]
      simp [Animal_Shelter.update, hm]
  · intro hop
    refine ⟨(db.getCol db.colName).map (fun d =>
      if docMatches lk d then applyOpDoc (if !(ud.any fun kv => startsWithDollar kv.1)
        then [("$set", Value.vDoc ud)] else ud) d else d), ?_, ?_, ?_⟩
    · have hm : update_many (db.getCol db.colName) lk
          (if !(ud.any fun kv => startsWithDollar kv.1)
            then [("$set", Value.vDoc ud)] else ud) =
          some (changedCount (db.getCol db.colName) ((db.getCol db.colName).map (fun d =>
            if docMatches lk d then applyOpDoc (if !(ud.any fun kv => startsWithDollar kv.1)
              then [("$set", Value.vDoc ud)] else ud) d else d)),
            (db.getCol db.colName).map (fun d =>
              if docMatches lk d then applyOpDoc (if !(ud.any fun kv => startsWithDollar kv.1)
                then [("$set", Value.vDoc ud)] else ud) d else d)) := by
        unfold Animal_Shelter.update_many
        rw [if_pos hop]
      simp [Animal_Shelter.update, hm]
    · exact List.length_map _ _
    · intro i hi
      simp [List.getElem?_map, List.getElem?_eq_getElem hi]

/-- Two documents, for the C6 witness. -/
def dbUpd : DB := ⟨"pets", [("pets", [[("a", Value.vInt 1)], [("a", Value.vInt 2)]])]⟩

/-- C6 witness: an operator-free update data document is applied as a
`$set`, to the one matching document, returning `modified_count` 1. -/
theorem C6_update_wrap_bulk_witness :
    ([("b", Value.vInt 9)] : Document).any (fun kv => startsWithDollar kv.1) = false ∧
    update false dbUpd (some [("a", Value.vInt 1)]) (some [("b", Value.vInt 9)]) =
      update false dbUpd (some [("a", Value.vInt 1)])
        (some [("$set", Value.vDoc [("b", Value.vInt 9)])]) ∧
    update false dbUpd (some [("a", Value.vInt 1)]) (some [("b", Value.vInt 9)]) =
      .ok (1, DB.setCol dbUpd "pets"
        [[("a", Value.vInt 1), ("b", Value.vInt 9)], [("a", Value.vInt 2)]]) :=
  ⟨by decide, (C6_update_wrap_bulk dbUpd [("a", Value.vInt 1)] [("b", Value.vInt 9)]).1 (by decide),
    by decide⟩

theorem mem_foldl_distinct (l : List Value) :
    ∀ (acc : List Value) (x : Value),
      x ∈ l.foldl (fun acc k => if k ∈ acc then acc else acc ++ [k]) acc →
      x ∈ acc ∨ x ∈ l := by
  induction l with
  | nil => intro acc x hx; exact Or.inl hx
  | cons k l ih =>
      intro acc x hx
      rcases ih _ x hx with hacc | hl
      · dsimp only at hacc
        by_cases hk : k ∈ acc
        · rw [if_pos hk] at hacc
          exact Or.inl hacc
        · rw [if_neg hk] at hacc
          rcases List.mem_append.mp hacc with h1 | h2
          · exact Or.inl h1
          · exact Or.inr (List.mem_cons.mpr (Or.inl (List.mem_singleton.mp h2)))
      · exact Or.inr (List.mem_cons_of_mem _ hl)

theorem mem_distinctKeys (l : List Value) (x : Value) (hx : x ∈ distinctKeys l) : x ∈ l := by
  rcases mem_foldl_distinct l [] x hx with h | h
  · cases h
  · exact h

theorem map_pair_eta (g : List (Value × Nat)) : g.map (fun r => (r.1, r.2)) = g :=
  (List.map_congr_left (fun _ _ => Prod.mk.eta)).trans (List.map_id g)

/-- The Labrador/empty-string-breed store, for the C7 counterexample. -/
def dbBreedsEmptyStr : DB := ⟨"pets", [("pets",
  [[("breed", Value.vStr "Labrador")], [("breed", Value.vStr "")],
   [("breed", Value.vStr "")]])]⟩

/-- C7 counterexample: with breeds `"Labrador"`, `""`, `""`, the group for
the empty-string breed — a present, non-null grouping key with the highest
count — is dropped by the client-side `if r["_id"]` filter, so it is false
that only null/absent keys are filtered out and all other entries kept. -/
theorem C7_counterexample :
    breed_counts false dbBreedsEmptyStr (some []) 20 = .ok [(Value.vStr "Labrador", 1)] ∧
    (∃ d ∈ dbBreedsEmptyStr.getCol dbBreedsEmptyStr.colName,
      d.lookup "breed" = some (Value.vStr "")) ∧
    Value.vStr "" ≠ Value.vNull ∧
    ∀ r ∈ [(Value.vStr "Labrador", 1)], r.1 ≠ Value.vStr "" := by
  decide

/-- C7 (amended): `breed_counts` matches the query (the empty query matches
everything), groups by breed counting occurrences, sorts descending by
count, caps at the limit server-side, and then client-side keeps exactly
the rows whose grouping key is truthy — dropping null/absent keys and also
any other falsy key, such as the empty string. -/
theorem C7_breed_counts_amended (db : DB) (q : Document) (l : Int) (hl : 0 < l) :
    ∃ g : List (Value × Nat),
      breed_counts false db (some q) l = .ok (g.filter (fun r => r.1.truthy)) ∧
      g = (List.insertionSort countGe
        (groupBreeds ((db.getCol db.colName).filter (docMatches q)))).take l.toNat ∧
      List.Sorted countGe g ∧
      g.length ≤ l.toNat ∧
      (∀ r ∈ g, r.2 =
        (((db.getCol db.colName).filter (docMatches q)).filter
          (fun d => breedKey d == r.1)).length) ∧
      (∀ r ∈ g, ∃ d ∈ (db.getCol db.colName).filter (docMatches q), breedKey d = r.1) := by
  refine ⟨(List.insertionSort countGe
      (groupBreeds ((db.getCol db.colName).filter (docMatches q)))).take l.toNat,
    ?_, rfl, ?_, ?_, ?_, ?_⟩
  · simp only [Animal_Shelter.breed_counts]
    rw [if_neg (by omega : ¬ l ≤ 0), map_pair_eta]
    rfl
  · exact List.Pairwise.sublist (List.take_sublist _ _) (List.sorted_insertionSort countGe _)
  · rw [List.length_take]
    exact inf_le_left
  · intro r hr
    have h1 : r ∈ List.insertionSort countGe
        (groupBreeds ((db.getCol db.colName).filter (docMatches q))) :=
      (List.take_sublist _ _).subset hr
    have h2 : r ∈ groupBreeds ((db.getCol db.colName).filter (docMatches q)) :=
      (List.perm_insertionSort countGe _).mem_iff.mp h1
    obtain ⟨k, _, hkr⟩ := List.mem_map.mp h2
    rw [← hkr]
  · intro r hr
    have h1 : r ∈ List.insertionSort countGe
        (groupBreeds ((db.getCol db.colName).filter (docMatches q))) :=
      (List.take_sublist _ _).subset hr
    have h2 : r ∈ groupBreeds ((db.getCol db.colName).filter (docMatches q)) :=
      (List.perm_insertionSort countGe _).mem_iff.mp h1
    obtain ⟨k, hk, hkr⟩ := List.mem_map.mp h2
    have hkmem := mem_distinctKeys _ k hk
    obtain ⟨d, hd, hbd⟩ := List.mem_map.mp hkmem
    exact ⟨d, hd, by rw [← hkr]; exact hbd⟩

/-- The Labrador/Labrador/Poodle store of the spec's example. -/
def dbLabPoo : DB := ⟨"pets", [("pets",
  [[("breed", Value.vStr "Labrador")], [("breed", Value.vStr "Labrador")],
   [("breed", Value.vStr "Poodle")]])]⟩

/-- C7 witness: on breeds Labrador, Labrador, Poodle with limit 20 the
hypothesis holds, the amended theorem applies, and the result is
Labrador 2 then Poodle 1, in descending count order. -/
theorem C7_breed_counts_amended_witness :
    (0 : Int) < 20 ∧
    (∃ g : List (Value × Nat),
      breed_counts false dbLabPoo (some []) 20 = .ok (g.filter (fun r => r.1.truthy)) ∧
      g = (List.insertionSort countGe
        (groupBreeds ((dbLabPoo.getCol dbLabPoo.colName).filter (docMatches [])))).take
          (20 : Int).toNat ∧
      List.Sorted countGe g ∧
      g.length ≤ (20 : Int).toNat ∧
      (∀ r ∈ g, r.2 =
        (((dbLabPoo.getCol dbLabPoo.colName).filter (docMatches [])).filter
          (fun d => breedKey d == r.1)).length) ∧
      (∀ r ∈ g, ∃ d ∈ (dbLabPoo.getCol dbLabPoo.colName).filter (docMatches []),
        breedKey d = r.1)) ∧
    breed_counts false dbLabPoo (some []) 20 =
      .ok [(Value.vStr "Labrador", 2), (Value.vStr "Poodle", 1)] :=
  ⟨by decide, C7_breed_counts_amended dbLabPoo [] 20 (by decide), by decide⟩
